import Mathlib

/-!
Verification of the data-processing nodes of the
credit-card-payment-default-prediction repository
(`pipelines/data_processing/nodes.py`).

Modelling choices (shallow embedding of pandas operations):

* A cell value is an `Int` code, a `String`, a `Bool` flag, an exact
  rational (standing for a Python float; the arithmetic the parsers
  perform — parse a decimal literal and divide by 100 — is exact at the
  values the spec discusses, so floats are modelled as `ℚ`), or the
  missing value `na` (pandas `NaN`).
* A table (`pd.DataFrame`) is a list of rows; a row is an association
  list of column name to cell value.  Column presence is per row; every
  theorem that needs a column to exist carries that as a hypothesis
  (pandas would raise `KeyError` otherwise, which is out of scope).
* `Series.replace(dict)` with integer keys rewrites exactly the integer
  cells that match a key and leaves every other cell unchanged.
* `pd.Categorical(values, categories=cats)` keeps a value when it is one
  of the (string) categories and turns every other value — including
  `NaN` and out-of-category raw codes — into `NaN`.
* `Series.str.replace(pat, "")` with a one-character literal pattern
  removes every occurrence of that character (literal semantics,
  `regex=False`); under the `.str` accessor a non-string cell yields
  `NaN`, and `astype(float)` keeps `NaN` while it parses strings as
  decimal literals.  The decimal grammar modelled for `float(...)` is an
  optional sign followed by digits with at most one decimal point (at
  least one digit overall); exponents and `inf`/`nan` literals are not
  modelled, no claim exercises them.
* `DataFrame.merge(..., how="inner")` (the default) keeps, for each left
  row in order, each right row in order whose key equals the left key.
* `DataFrame.dropna()` keeps exactly the rows with no missing cell.
-/

namespace CreditCard

/-- A single cell of a table. -/
inductive Value where
  | int  : Int → Value
  | str  : String → Value
  | bool : Bool → Value
  | rat  : ℚ → Value
  | na   : Value
deriving DecidableEq, Repr

/-- A row: association list from column name to cell value. -/
abbrev Row := List (String × Value)

/-- A table (`pd.DataFrame`): a list of rows. -/
abbrev Frame := List Row

/-- Value of column `c` in a row (first occurrence), `none` if absent. -/
def lookupCol (row : Row) (c : String) : Option Value :=
  row.lookup c

/-- One entry of a column assignment: rewrite the cell when its key is the
assigned column, leave it alone otherwise. -/
def colStep (c : String) (f : Value → Value) (kv : String × Value) : String × Value :=
  if kv.1 = c then (kv.1, f kv.2) else kv

/-- `row[c] = f(row[c])`: rewrite the cells of column `c`, leave the rest. -/
def mapCol (c : String) (f : Value → Value) (row : Row) : Row :=
  row.map (colStep c f)

/-- Fallible version of `mapCol` (for columns cast with `astype(float)`,
where a bad cell aborts the whole assignment). -/
def mapColM (c : String) (f : Value → Option Value) (row : Row) : Option Row :=
  row.mapM (fun kv => if kv.1 = c then (f kv.2).map (fun v => (kv.1, v)) else some kv)

/-- `Series.replace(mapping)` at one cell: an integer cell matching a key
of the mapping becomes the mapped string; every other cell is unchanged. -/
def replaceVal (m : List (Int × String)) (v : Value) : Value :=
  match v with
  | .int n =>
    match m.lookup n with
    | some s => .str s
    | none => .int n
  | _ => v

/-- `pd.Categorical(·, categories=cats)` at one cell: a string that is one
of the categories is kept, everything else becomes missing. -/
def toCategorical (cats : List String) (v : Value) : Value :=
  match v with
  | .str s => if s ∈ cats then .str s else .na
  | _ => .na

/-- `{1: 'Male', 2: 'Female'}` from `preprocess_dtypes`. -/
def sexMapping : List (Int × String) := [(1, "Male"), (2, "Female")]

/-- `education_mapping` from `preprocess_dtypes`. -/
def educationMapping : List (Int × String) :=
  [(1, "GraduateSchool"), (2, "University"), (3, "HighSchool"), (4, "Others"),
   (5, "Unknown-5"), (6, "Unknown-6"), (0, "MISSING")]

/-- `marriage_mapping` from `preprocess_dtypes`. -/
def marriageMapping : List (Int × String) :=
  [(1, "Married"), (2, "Single"), (3, "Divorced"), (0, "MISSING")]

/-- One cell of `pd.Categorical(col.replace(m), categories=m.values())`. -/
def normalizeCell (m : List (Int × String)) (v : Value) : Value :=
  toCategorical (m.map Prod.snd) (replaceVal m v)

/-- `preprocess_dtypes` on one row: the three column assignments of the
source, in source order (`SEX`, then `EDUCATION`, then `MARRIAGE`). -/
def normalizeRow (row : Row) : Row :=
  mapCol "MARRIAGE" (normalizeCell marriageMapping)
    (mapCol "EDUCATION" (normalizeCell educationMapping)
      (mapCol "SEX" (normalizeCell sexMapping) row))

/-- `preprocess_dtypes(data)`: relabel `SEX`, `EDUCATION`, `MARRIAGE`. -/
def preprocess_dtypes (data : Frame) : Frame :=
  data.map normalizeRow

/-- `_is_true` at one cell: `x == "t"` elementwise (missing, integer and
boolean cells compare unequal to the string `"t"`, giving `False`). -/
def is_true (v : Value) : Value :=
  .bool (v = Value.str "t")

/-- `str.replace(c, "")` with a literal one-character pattern: remove
every occurrence of the character. -/
def strReplaceChar (c : Char) (s : String) : String :=
  String.mk (s.toList.filter (fun a => a != c))

/-- Numeric value of a digit string (most significant first). -/
def digitsVal (cs : List Char) : Nat :=
  cs.foldl (fun a c => a * 10 + (c.toNat - 48)) 0

/-- Groups of characters between occurrences of a separator, as in
Python's `split`. -/
def splitOnChar (c : Char) : List Char → List (List Char)
  | [] => [[]]
  | a :: rest =>
    match splitOnChar c rest with
    | g :: gs => if a = c then [] :: g :: gs else (a :: g) :: gs
    | [] => if a = c then [[], []] else [[a]]

/-- `float(s)` for an unsigned decimal literal `m` or `m.f`: digits with
at most one decimal point and at least one digit overall; `m.f` with `k`
fraction digits denotes the exact rational `(m * 10 ^ k + f) / 10 ^ k`. -/
def parseUnsigned (cs : List Char) : Option ℚ :=
  match splitOnChar ('.') cs with
  | [ip] =>
    if !ip.isEmpty && ip.all Char.isDigit then some (mkRat (digitsVal ip) 1) else none
  | [ip, fp] =>
    if !(ip.isEmpty && fp.isEmpty) && ip.all Char.isDigit && fp.all Char.isDigit then
      some (mkRat (digitsVal ip * 10 ^ fp.length + digitsVal fp) (10 ^ fp.length))
    else none
  | _ => none

/-- Optional sign, then an unsigned decimal literal. -/
def parseFloatChars (cs : List Char) : Option ℚ :=
  match cs with
  | '-' :: rest => (parseUnsigned rest).map Neg.neg
  | '+' :: rest => parseUnsigned rest
  | _ => parseUnsigned cs

/-- `float(s)` on a string. -/
def parseFloat (s : String) : Option ℚ :=
  parseFloatChars s.toList

/-- `_parse_percentage` on one string: remove every `%`, cast to float,
divide by 100.  `none` is the format error `astype(float)` raises. -/
def parse_percentage (s : String) : Option ℚ :=
  (parseFloat (strReplaceChar '%' s)).map (fun q => q / 100)

/-- `_parse_money` on one string: remove every `$`, then every `,`, cast
to float.  `none` is the format error `astype(float)` raises. -/
def parse_money (s : String) : Option ℚ :=
  parseFloat (strReplaceChar ',' (strReplaceChar '$' s))

/-- `_parse_percentage` at one cell: under the `.str` accessor a
non-string cell becomes `NaN`, which `astype(float)` and the division
keep as `NaN`; an unparsable string aborts the cast. -/
def parsePercentageCell (v : Value) : Option Value :=
  match v with
  | .str s => (parse_percentage s).map Value.rat
  | _ => some .na

/-- `_parse_money` at one cell (same `.str`-accessor conventions). -/
def parseMoneyCell (v : Value) : Option Value :=
  match v with
  | .str s => (parse_money s).map Value.rat
  | _ => some .na

/-- `preprocess_companies`: flag-parse `iata_approved`, percentage-parse
`company_rating`.  The metadata record the source returns alongside the
frame (`{"columns": ..., "data_type": "companies"}`) carries no cell
data and no claim mentions it, so only the frame is modelled. -/
def preprocess_companies (companies : Frame) : Option Frame :=
  companies.mapM (fun row =>
    mapColM "company_rating" parsePercentageCell
      (mapCol "iata_approved" is_true row))

/-- `preprocess_shuttles`: flag-parse `d_check_complete` and
`moon_clearance_complete`, money-parse `price`. -/
def preprocess_shuttles (shuttles : Frame) : Option Frame :=
  shuttles.mapM (fun row =>
    mapColM "price" parseMoneyCell
      (mapCol "moon_clearance_complete" is_true
        (mapCol "d_check_complete" is_true row)))

/-- Inner `merge(left, right, left_on, right_on)`: for each left row in
order, each right row in order whose key cell equals the left key cell,
concatenating the rows. -/
def merge (left right : Frame) (leftOn rightOn : String) : Frame :=
  left.flatMap (fun l =>
    (right.filter (fun r => decide (lookupCol r rightOn = lookupCol l leftOn))).map
      (fun r => l ++ r))

/-- `drop(c, axis=1)` on one row. -/
def dropColRow (c : String) (row : Row) : Row :=
  row.filter (fun kv => kv.1 != c)

/-- `drop(c, axis=1)` on a frame. -/
def dropCol (c : String) (df : Frame) : Frame :=
  df.map (dropColRow c)

/-- `dropna()`: keep exactly the rows with no missing cell. -/
def dropna (df : Frame) : Frame :=
  df.filter (fun row => row.all (fun kv => kv.2 != Value.na))

/-- `create_model_input_table(shuttles, companies, reviews)`. -/
def create_model_input_table (shuttles companies reviews : Frame) : Frame :=
  let rated_shuttles := merge shuttles reviews "id" "shuttle_id"
  let rated_shuttles := dropCol "id" rated_shuttles
  let model_input_table := merge rated_shuttles companies "company_id" "id"
  dropna model_input_table

/-! ### Helper lemmas about the category normalization -/

lemma lookup_mem_values (m : List (Int × String)) (n : Int) (s : String)
    (h : m.lookup n = some s) : s ∈ m.map Prod.snd := by
  induction m with
  | nil => simp [List.lookup] at h
  | cons p l ih =>
    rcases p with ⟨a, b⟩
    rw [List.lookup_cons] at h
    split at h
    · simp only [Option.some.injEq] at h
      subst h
      simp
    · simp only [List.map_cons, List.mem_cons]
      exact Or.inr (ih h)

lemma normalizeCell_shape (m : List (Int × String)) (v : Value) :
    normalizeCell m v = Value.na ∨
      ∃ s, normalizeCell m v = Value.str s ∧ s ∈ m.map Prod.snd := by
  unfold normalizeCell
  rcases hrv : replaceVal m v with n | s | b | q | _
  case str =>
    by_cases hs : s ∈ m.map Prod.snd
    · exact Or.inr ⟨s, by simp [toCategorical, hs], hs⟩
    · exact Or.inl (by simp [toCategorical, hs])
  all_goals exact Or.inl rfl

lemma normalizeCell_idem (m : List (Int × String)) (v : Value) :
    normalizeCell m (normalizeCell m v) = normalizeCell m v := by
  rcases normalizeCell_shape m v with h | ⟨s, h, hs⟩ <;> rw [h]
  · rfl
  · simp [normalizeCell, replaceVal, toCategorical, hs]

lemma normalizeCell_lookup (m : List (Int × String)) (n : Int) (s : String)
    (h : m.lookup n = some s) :
    normalizeCell m (Value.int n) = Value.str s := by
  have hrep : replaceVal m (Value.int n) = Value.str s := by
    simp [replaceVal, h]
  unfold normalizeCell
  rw [hrep]
  simp [toCategorical, lookup_mem_values m n s h]

lemma normalizeCell_sex (v : Value) :
    normalizeCell sexMapping v =
      if v = Value.int 1 then Value.str "Male"
      else if v = Value.int 2 then Value.str "Female"
      else if v = Value.str "Male" ∨ v = Value.str "Female" then v
      else Value.na := by
  rcases v with n | s | b | q | _
  · by_cases h1 : n = 1
    · subst h1; decide
    · by_cases h2 : n = 2
      · subst h2; decide
      · rw [if_neg (by simp [h1]), if_neg (by simp [h2]), if_neg (by simp)]
        have hb1 : (n == (1 : Int)) = false := beq_eq_false_iff_ne.mpr h1
        have hb2 : (n == (2 : Int)) = false := beq_eq_false_iff_ne.mpr h2
        have hlk : sexMapping.lookup n = none := by
          simp [sexMapping, List.lookup, hb1, hb2]
        have hrep : replaceVal sexMapping (Value.int n) = Value.int n := by
          simp [replaceVal, hlk]
        unfold normalizeCell
        rw [hrep]
        rfl
  · rw [if_neg (by simp), if_neg (by simp)]
    by_cases hM : s = "Male"
    · subst hM; decide
    · by_cases hF : s = "Female"
      · subst hF; decide
      · rw [if_neg (by simp [hM, hF])]
        have hs : ¬ s ∈ sexMapping.map Prod.snd := by simp [sexMapping, hM, hF]
        show (if s ∈ sexMapping.map Prod.snd then Value.str s else Value.na) = Value.na
        rw [if_neg hs]
  · rw [if_neg (by simp), if_neg (by simp), if_neg (by simp)]
    rfl
  · rw [if_neg (by simp), if_neg (by simp), if_neg (by simp)]
    rfl
  · decide

lemma preprocess_dtypes_getElem (data : Frame) (i : Nat) (row : Row)
    (hrow : data[i]? = some row) :
    (preprocess_dtypes data)[i]? = some (normalizeRow row) := by
  simp [preprocess_dtypes, List.getElem?_map, hrow]

lemma normalizeRow_getElem (row : Row) (j : Nat) :
    (normalizeRow row)[j]? = row[j]?.map (fun kv =>
      colStep "MARRIAGE" (normalizeCell marriageMapping)
        (colStep "EDUCATION" (normalizeCell educationMapping)
          (colStep "SEX" (normalizeCell sexMapping) kv))) := by
  cases h : row[j]? with
  | none => simp [normalizeRow, mapCol, List.getElem?_map, h]
  | some kv => simp [normalizeRow, mapCol, List.getElem?_map, h]

lemma normalizeRow_map (row : Row) :
    normalizeRow row = row.map (fun kv =>
      colStep "MARRIAGE" (normalizeCell marriageMapping)
        (colStep "EDUCATION" (normalizeCell educationMapping)
          (colStep "SEX" (normalizeCell sexMapping) kv))) := by
  unfold normalizeRow mapCol
  rw [List.map_map, List.map_map]
  rfl

lemma normalizeEntry_idem (kv : String × Value) :
    colStep "MARRIAGE" (normalizeCell marriageMapping)
      (colStep "EDUCATION" (normalizeCell educationMapping)
        (colStep "SEX" (normalizeCell sexMapping)
          (colStep "MARRIAGE" (normalizeCell marriageMapping)
            (colStep "EDUCATION" (normalizeCell educationMapping)
              (colStep "SEX" (normalizeCell sexMapping) kv))))) =
    colStep "MARRIAGE" (normalizeCell marriageMapping)
      (colStep "EDUCATION" (normalizeCell educationMapping)
        (colStep "SEX" (normalizeCell sexMapping) kv)) := by
  rcases kv with ⟨k, v⟩
  by_cases hS : k = "SEX"
  · subst hS; simp [colStep, normalizeCell_idem]
  · by_cases hE : k = "EDUCATION"
    · subst hE; simp [colStep, normalizeCell_idem]
    · by_cases hM : k = "MARRIAGE"
      · subst hM; simp [colStep, normalizeCell_idem]
      · simp [colStep, hS, hE, hM]

/-! ### Claim theorems -/

/-- C1, counterexample.  The claim says every `SEX` value outside `{1, 2}`
is preserved as its original value in the output.  On the one-row table
with `SEX = 3` the code produces a missing value instead: the
`pd.Categorical(..., categories=['Male', 'Female'])` cast turns the
unmapped code `3` into `NaN`. -/
theorem C1_sex_passthrough_counterexample :
    preprocess_dtypes [[("SEX", Value.int 3)]] = [[("SEX", Value.na)]] ∧
    Value.na ≠ Value.int 3 := by
  constructor
  · rfl
  · decide

/-- C1, amended.  For every table containing a `SEX` cell, the Dtype
Normalizer maps code 1 to `"Male"` and code 2 to `"Female"`, passes the
strings `"Male"`/`"Female"` through, and replaces every other value
(in particular every code outside `{1, 2}`) by a missing value, because
the column is cast to a categorical with categories `{Male, Female}`. -/
theorem C1_sex_mapping (data : Frame) (i j : Nat) (row : Row) (v : Value)
    (hrow : data[i]? = some row) (hcell : row[j]? = some ("SEX", v)) :
    ∃ row', (preprocess_dtypes data)[i]? = some row' ∧
      row'[j]? = some ("SEX",
        if v = Value.int 1 then Value.str "Male"
        else if v = Value.int 2 then Value.str "Female"
        else if v = Value.str "Male" ∨ v = Value.str "Female" then v
        else Value.na) := by
  refine ⟨normalizeRow row, preprocess_dtypes_getElem data i row hrow, ?_⟩
  rw [normalizeRow_getElem, hcell]
  rw [← normalizeCell_sex]
  simp [colStep]

/-- C1, witness for the amended theorem at the concrete input `SEX = 3`. -/
theorem C1_sex_mapping_witness :
    ∃ row', (preprocess_dtypes [[("SEX", Value.int 3)]])[0]? = some row' ∧
      row'[0]? = some ("SEX",
        if Value.int 3 = Value.int 1 then Value.str "Male"
        else if Value.int 3 = Value.int 2 then Value.str "Female"
        else if Value.int 3 = Value.str "Male" ∨ Value.int 3 = Value.str "Female" then Value.int 3
        else Value.na) :=
  C1_sex_mapping [[("SEX", Value.int 3)]] 0 0 [("SEX", Value.int 3)] (Value.int 3) rfl rfl

/-- C2.  The Dtype Normalizer is idempotent: applying `preprocess_dtypes`
to its own output yields a table equal to that output (labels already
applied are category strings, which the integer-keyed replacement leaves
unchanged and the categorical cast keeps). -/
theorem C2_preprocess_dtypes_idempotent (data : Frame) :
    preprocess_dtypes (preprocess_dtypes data) = preprocess_dtypes data := by
  unfold preprocess_dtypes
  rw [List.map_map]
  apply List.map_congr_left
  intro row _
  show normalizeRow (normalizeRow row) = normalizeRow row
  rw [normalizeRow_map, normalizeRow_map, List.map_map]
  apply List.map_congr_left
  intro kv _
  simp only [Function.comp_apply]
  exact normalizeEntry_idem kv

/-- Modelled from the spec's words, for comparison with the source
definition (refinement check for C4): strip only a single trailing `%`
character, then cast the remainder and divide by 100. -/
def parsePercentageTrailingOnly (s : String) : Option ℚ :=
  (if s.toList.getLast? = some ('%') then parseFloatChars s.toList.dropLast
   else parseFloatChars s.toList).map (fun q => q / 100)

/-- C4, counterexample.  The claim says the percentage parser strips a
trailing `%` character and fails exactly when the so-stripped string is
not numeric.  On the input `"8%5"` the code removes every `%` occurrence
and succeeds with 0.85, while under the claimed trailing-only stripping
the string stays `"8%5"`, which is not numeric, so the claim demands a
format error there. -/
theorem C4_trailing_counterexample :
    parse_percentage "8%5" = some (17 / 20 : ℚ) ∧
    parsePercentageTrailingOnly "8%5" = none := by
  constructor
  · have h : parseFloat (strReplaceChar ('%') "8%5") = some (mkRat 85 1) := by decide
    unfold parse_percentage
    rw [h, Option.map_some', Option.some.injEq, Rat.mkRat_eq_div]
    norm_num
  · decide

/-- C4, amended.  The percentage parser removes every `%` character (not
only a trailing one), casts the remainder to a number and divides by
100 — `"85%"` maps to 0.85 and `"100%"` to 1.0 — and it fails with a
format error exactly when the `%`-free residue is not numeric. -/
theorem C4_percentage_stripping :
    parse_percentage "85%" = some (17 / 20 : ℚ) ∧
    parse_percentage "100%" = some 1 ∧
    (∀ s : String, parse_percentage s = none ↔ parseFloat (strReplaceChar '%' s) = none) ∧
    ∀ s : String, ∀ q : ℚ, parseFloat (strReplaceChar '%' s) = some q →
      parse_percentage s = some (q / 100) := by
  refine ⟨?_, ?_, fun s => ?_, fun s q h => ?_⟩
  · have h : parseFloat (strReplaceChar ('%') "85%") = some (mkRat 85 1) := by decide
    unfold parse_percentage
    rw [h, Option.map_some', Option.some.injEq, Rat.mkRat_eq_div]
    norm_num
  · have h : parseFloat (strReplaceChar ('%') "100%") = some (mkRat 100 1) := by decide
    unfold parse_percentage
    rw [h, Option.map_some', Option.some.injEq, Rat.mkRat_eq_div]
    norm_num
  · exact Option.map_eq_none'
  · unfold parse_percentage
    rw [h, Option.map_some']

/-- C4, witness for the amended theorem at the numeric residue of `"85%"`. -/
theorem C4_percentage_stripping_witness :
    parse_percentage "85%" = some (mkRat 85 1 / 100) :=
  C4_percentage_stripping.2.2.2 "85%" (mkRat 85 1) (by decide)

/-- C5.  The currency parser strips every `$` and `,` character and casts
the remainder to a number — `"$1,200.50"` maps to 1200.50 — and it fails
with a format error exactly when the stripped residue is not numeric
(for example on `"$1,2x0"`). -/
theorem C5_money_stripping :
    parse_money "$1,200.50" = some (2401 / 2 : ℚ) ∧
    (∀ s : String, parse_money s = parseFloat (strReplaceChar ',' (strReplaceChar '$' s))) ∧
    (∀ s : String,
      parse_money s = none ↔ parseFloat (strReplaceChar ',' (strReplaceChar '$' s)) = none) ∧
    parse_money "$1,2x0" = none := by
  refine ⟨?_, fun s => rfl, fun s => Iff.rfl, by decide⟩
  have h : parseFloat (strReplaceChar (',') (strReplaceChar ('$') "$1,200.50"))
      = some (mkRat 120050 100) := by decide
  unfold parse_money
  rw [h, Option.some.injEq, Rat.mkRat_eq_div]
  norm_num

/-- C6.  The boolean-flag parser is a total function with no failure
case: on every cell it returns a boolean, and on a string cell it
returns true exactly when the string is `"t"` (in particular `"f"` and
`""` give false). -/
theorem C6_is_true_total :
    (∀ v : Value, is_true v = Value.bool true ∨ is_true v = Value.bool false) ∧
    (∀ s : String, (is_true (Value.str s) = Value.bool true ↔ s = "t")) ∧
    is_true (Value.str "f") = Value.bool false ∧
    is_true (Value.str "") = Value.bool false := by
  refine ⟨fun v => ?_, fun s => ?_, by decide, by decide⟩
  · by_cases h : v = Value.str "t"
    · left; simp [is_true, h]
    · right; simp [is_true, h]
  · simp [is_true]

/-- C7.  For every table, every `EDUCATION` and `MARRIAGE` code of the
source domain is mapped to exactly the label its mapping assigns —
EDUCATION: 1 GraduateSchool, 2 University, 3 HighSchool, 4 Others,
5 Unknown-5, 6 Unknown-6, 0 MISSING; MARRIAGE: 1 Married, 2 Single,
3 Divorced, 0 MISSING — with codes 5 and 6 mapped to distinct labels
and no code dropped. -/
theorem C7_education_marriage_mapping :
    (∀ data : Frame, ∀ i j : Nat, ∀ row : Row, ∀ n : Int, ∀ s : String,
      data[i]? = some row → row[j]? = some ("EDUCATION", Value.int n) →
      educationMapping.lookup n = some s →
      ∃ row', (preprocess_dtypes data)[i]? = some row' ∧
        row'[j]? = some ("EDUCATION", Value.str s)) ∧
    (∀ data : Frame, ∀ i j : Nat, ∀ row : Row, ∀ n : Int, ∀ s : String,
      data[i]? = some row → row[j]? = some ("MARRIAGE", Value.int n) →
      marriageMapping.lookup n = some s →
      ∃ row', (preprocess_dtypes data)[i]? = some row' ∧
        row'[j]? = some ("MARRIAGE", Value.str s)) ∧
    (educationMapping.lookup 1 = some "GraduateSchool" ∧
     educationMapping.lookup 2 = some "University" ∧
     educationMapping.lookup 3 = some "HighSchool" ∧
     educationMapping.lookup 4 = some "Others" ∧
     educationMapping.lookup 5 = some "Unknown-5" ∧
     educationMapping.lookup 6 = some "Unknown-6" ∧
     educationMapping.lookup 0 = some "MISSING") ∧
    (marriageMapping.lookup 1 = some "Married" ∧
     marriageMapping.lookup 2 = some "Single" ∧
     marriageMapping.lookup 3 = some "Divorced" ∧
     marriageMapping.lookup 0 = some "MISSING") ∧
    ("Unknown-5" : String) ≠ "Unknown-6" := by
  refine ⟨?_, ?_, by decide, by decide, by decide⟩
  · intro data i j row n s hrow hcell hlk
    refine ⟨normalizeRow row, preprocess_dtypes_getElem data i row hrow, ?_⟩
    have hstep : colStep "MARRIAGE" (normalizeCell marriageMapping)
        (colStep "EDUCATION" (normalizeCell educationMapping)
          (colStep "SEX" (normalizeCell sexMapping) ("EDUCATION", Value.int n)))
        = ("EDUCATION", Value.str s) := by
      simp [colStep, normalizeCell_lookup educationMapping n s hlk]
    rw [normalizeRow_getElem, hcell]
    simp [hstep]
  · intro data i j row n s hrow hcell hlk
    refine ⟨normalizeRow row, preprocess_dtypes_getElem data i row hrow, ?_⟩
    have hstep : colStep "MARRIAGE" (normalizeCell marriageMapping)
        (colStep "EDUCATION" (normalizeCell educationMapping)
          (colStep "SEX" (normalizeCell sexMapping) ("MARRIAGE", Value.int n)))
        = ("MARRIAGE", Value.str s) := by
      simp [colStep, normalizeCell_lookup marriageMapping n s hlk]
    rw [normalizeRow_getElem, hcell]
    simp [hstep]

/-- C7, witness at one-row tables with `EDUCATION = 5` and `MARRIAGE = 0`. -/
theorem C7_education_marriage_mapping_witness :
    (∃ row', (preprocess_dtypes [[("EDUCATION", Value.int 5)]])[0]? = some row' ∧
      row'[0]? = some ("EDUCATION", Value.str "Unknown-5")) ∧
    (∃ row', (preprocess_dtypes [[("MARRIAGE", Value.int 0)]])[0]? = some row' ∧
      row'[0]? = some ("MARRIAGE", Value.str "MISSING")) :=
  ⟨C7_education_marriage_mapping.1 [[("EDUCATION", Value.int 5)]] 0 0
      [("EDUCATION", Value.int 5)] 5 "Unknown-5" rfl rfl (by decide),
   C7_education_marriage_mapping.2.1 [[("MARRIAGE", Value.int 0)]] 0 0
      [("MARRIAGE", Value.int 0)] 0 "MISSING" rfl rfl (by decide)⟩

/-- C8.  The Dtype Normalizer preserves the number and order of rows (the
transformed row sits at the same index with the same number of cells in
the same positions) and leaves every cell of a column other than `SEX`,
`EDUCATION` and `MARRIAGE` unchanged. -/
theorem C8_frame_preserved (data : Frame) :
    (preprocess_dtypes data).length = data.length ∧
    ∀ i j : Nat, ∀ row : Row, ∀ k : String, ∀ v : Value,
      data[i]? = some row → row[j]? = some (k, v) →
      k ≠ "SEX" → k ≠ "EDUCATION" → k ≠ "MARRIAGE" →
      ∃ row', (preprocess_dtypes data)[i]? = some row' ∧
        row'.length = row.length ∧ row'[j]? = some (k, v) := by
  constructor
  · simp [preprocess_dtypes]
  · intro i j row k v hrow hcell hS hE hM
    refine ⟨normalizeRow row, preprocess_dtypes_getElem data i row hrow, ?_, ?_⟩
    · simp [normalizeRow_map]
    · rw [normalizeRow_getElem, hcell]
      simp [colStep, hS, hE, hM]

/-- C8, witness at a one-row table with an `AGE` column. -/
theorem C8_frame_preserved_witness :
    ∃ row', (preprocess_dtypes [[("AGE", Value.int 40)]])[0]? = some row' ∧
      row'.length = ([("AGE", Value.int 40)] : Row).length ∧
      row'[0]? = some ("AGE", Value.int 40) :=
  (C8_frame_preserved [[("AGE", Value.int 40)]]).2 0 0 [("AGE", Value.int 40)]
    "AGE" (Value.int 40) rfl rfl (by decide) (by decide) (by decide)

/-! ### Helper lemmas about option-valued traversals, joins and filters -/

lemma mapM_mem_option {α β : Type} (f : α → Option β) :
    ∀ (l : List α) (out : List β), l.mapM f = some out →
      ∀ b ∈ out, ∃ a ∈ l, f a = some b := by
  intro l
  induction l with
  | nil =>
    intro out h b hb
    simp only [List.mapM_nil, pure] at h
    cases h
    simp at hb
  | cons a l ih =>
    intro out h b hb
    rw [List.mapM_cons] at h
    rcases hfa : f a with _ | x
    · rw [hfa] at h
      simp at h
    · rw [hfa] at h
      rcases hml : l.mapM f with _ | xs
      · rw [hml] at h
        simp at h
      · rw [hml] at h
        simp at h
        subst h
        rcases List.mem_cons.mp hb with hb | hb
        · exact ⟨a, List.mem_cons_self a l, by rw [hfa, hb]⟩
        · obtain ⟨a0, ha0, hfa0⟩ := ih xs hml b hb
          exact ⟨a0, List.mem_cons_of_mem a ha0, hfa0⟩

lemma mapColM_mem_ne (c : String) (f : Value → Option Value) (row out : Row)
    (h : mapColM c f row = some out) :
    ∀ kv ∈ out, kv.1 ≠ c → kv ∈ row := by
  intro kv hkv hne
  obtain ⟨kv0, hkv0, hg⟩ := mapM_mem_option _ row out h kv hkv
  by_cases hc : kv0.1 = c
  · rw [if_pos hc] at hg
    rcases hf : f kv0.2 with _ | v
    · rw [hf] at hg
      simp at hg
    · rw [hf] at hg
      simp only [Option.map_some', Option.some.injEq] at hg
      rw [← hg] at hne
      exact absurd hc hne
  · rw [if_neg hc] at hg
    simp only [Option.some.injEq] at hg
    rwa [← hg]

lemma mapCol_mem_ne (c : String) (f : Value → Value) (row : Row) :
    ∀ kv ∈ mapCol c f row, kv.1 ≠ c → kv ∈ row := by
  intro kv hkv hne
  rw [mapCol, List.mem_map] at hkv
  obtain ⟨kv0, hkv0, heq⟩ := hkv
  by_cases hc : kv0.1 = c
  · rw [colStep, if_pos hc] at heq
    rw [← heq] at hne
    exact absurd hc hne
  · rw [colStep, if_neg hc] at heq
    rwa [← heq]

lemma mapCol_mem_eq (c : String) (f : Value → Value) (row : Row) :
    ∀ kv ∈ mapCol c f row, kv.1 = c → ∃ v0, kv = (kv.1, f v0) := by
  intro kv hkv hk
  rw [mapCol, List.mem_map] at hkv
  obtain ⟨kv0, hkv0, heq⟩ := hkv
  by_cases hc : kv0.1 = c
  · rw [colStep, if_pos hc] at heq
    exact ⟨kv0.2, by rw [← heq]⟩
  · rw [colStep, if_neg hc] at heq
    rw [← heq] at hk
    exact absurd hk hc

lemma preprocess_shuttles_flags (shuttles out : Frame)
    (h : preprocess_shuttles shuttles = some out) :
    ∀ row ∈ out, ∀ kv ∈ row,
      kv.1 = "d_check_complete" ∨ kv.1 = "moon_clearance_complete" →
      ∃ b, kv.2 = Value.bool b := by
  intro row hrow kv hkv hflag
  obtain ⟨row0, hrow0, hf⟩ := mapM_mem_option _ shuttles out h row hrow
  have hprice : kv.1 ≠ "price" := by
    rcases hflag with hd | hm
    · rw [hd]; decide
    · rw [hm]; decide
  have hkv1 : kv ∈ mapCol "moon_clearance_complete" is_true
      (mapCol "d_check_complete" is_true row0) :=
    mapColM_mem_ne _ _ _ _ hf kv hkv hprice
  rcases hflag with hd | hm
  · have hne : kv.1 ≠ "moon_clearance_complete" := by rw [hd]; decide
    have hkv2 : kv ∈ mapCol "d_check_complete" is_true row0 :=
      mapCol_mem_ne _ _ _ kv hkv1 hne
    obtain ⟨v0, hv0⟩ := mapCol_mem_eq _ _ _ kv hkv2 hd
    exact ⟨decide (v0 = Value.str "t"), by rw [hv0]; rfl⟩
  · obtain ⟨v0, hv0⟩ := mapCol_mem_eq _ _ _ kv hkv1 hm
    exact ⟨decide (v0 = Value.str "t"), by rw [hv0]; rfl⟩

lemma preprocess_companies_flags (companies out : Frame)
    (h : preprocess_companies companies = some out) :
    ∀ row ∈ out, ∀ kv ∈ row, kv.1 = "iata_approved" → ∃ b, kv.2 = Value.bool b := by
  intro row hrow kv hkv hflag
  obtain ⟨row0, hrow0, hf⟩ := mapM_mem_option _ companies out h row hrow
  have hrating : kv.1 ≠ "company_rating" := by rw [hflag]; decide
  have hkv1 : kv ∈ mapCol "iata_approved" is_true row0 :=
    mapColM_mem_ne _ _ _ _ hf kv hkv hrating
  obtain ⟨v0, hv0⟩ := mapCol_mem_eq _ _ _ kv hkv1 hflag
  exact ⟨decide (v0 = Value.str "t"), by rw [hv0]; rfl⟩

lemma mem_merge {left right : Frame} {lo ro : String} {row : Row}
    (h : row ∈ merge left right lo ro) :
    ∃ l ∈ left, ∃ r ∈ right, lookupCol r ro = lookupCol l lo ∧ row = l ++ r := by
  rw [merge, List.mem_flatMap] at h
  obtain ⟨l, hl, hrow⟩ := h
  rw [List.mem_map] at hrow
  obtain ⟨r, hr, heq⟩ := hrow
  rw [List.mem_filter] at hr
  exact ⟨l, hl, r, hr.1, of_decide_eq_true hr.2, heq.symm⟩

lemma mem_dropna {df : Frame} {row : Row} (h : row ∈ dropna df) :
    row ∈ df ∧ ∀ kv ∈ row, kv.2 ≠ Value.na := by
  rw [dropna, List.mem_filter] at h
  exact ⟨h.1, fun kv hkv => bne_iff_ne.mp (List.all_eq_true.mp h.2 kv hkv)⟩

lemma mem_create_model_input_table {shuttles companies reviews : Frame} {row : Row}
    (h : row ∈ create_model_input_table shuttles companies reviews) :
    (∀ kv ∈ row, kv.2 ≠ Value.na) ∧
    ∃ s ∈ shuttles, ∃ r ∈ reviews, ∃ c ∈ companies,
      lookupCol r "shuttle_id" = lookupCol s "id" ∧
      lookupCol c "id" = lookupCol (dropColRow "id" (s ++ r)) "company_id" ∧
      row = dropColRow "id" (s ++ r) ++ c := by
  simp only [create_model_input_table] at h
  obtain ⟨hmem, hna⟩ := mem_dropna h
  refine ⟨hna, ?_⟩
  obtain ⟨d, hd, c, hc, hkey2, heq2⟩ := mem_merge hmem
  rw [dropCol, List.mem_map] at hd
  obtain ⟨m, hm, hdm⟩ := hd
  obtain ⟨s, hs, r, hr, hkey1, heq1⟩ := mem_merge hm
  subst heq1
  subst hdm
  subst heq2
  exact ⟨s, hs, r, hr, c, hc, hkey1, hkey2, rfl⟩

lemma lookupCol_append_ne (l1 l2 : Row) (k : String)
    (h : ∀ kv ∈ l1, kv.1 ≠ k) : lookupCol (l1 ++ l2) k = lookupCol l2 k := by
  induction l1 with
  | nil => rfl
  | cons kv l ih =>
    rcases kv with ⟨a, b⟩
    have ha : (k == a) = false :=
      beq_eq_false_iff_ne.mpr fun he => h (a, b) (List.mem_cons_self _ _) he.symm
    rw [List.cons_append]
    unfold lookupCol
    rw [List.lookup_cons, ha]
    exact ih fun kv hkv => h kv (List.mem_cons_of_mem _ hkv)

lemma dropColRow_key_ne (c : String) (row : Row) :
    ∀ kv ∈ dropColRow c row, kv.1 ≠ c := by
  intro kv hkv
  rw [dropColRow, List.mem_filter] at hkv
  exact bne_iff_ne.mp hkv.2

lemma dropColRow_append (c : String) (l1 l2 : Row) (h : ∀ kv ∈ l2, kv.1 ≠ c) :
    dropColRow c (l1 ++ l2) = dropColRow c l1 ++ l2 := by
  unfold dropColRow
  rw [List.filter_append]
  congr 1
  rw [List.filter_eq_self]
  intro kv hkv
  exact bne_iff_ne.mpr (h kv hkv)

/-! ### Remaining claim theorems -/

/-- One-row shuttles table of the spec's worked example. -/
def exShuttles : Frame := [[("id", Value.int 1), ("company_id", Value.int 10)]]

/-- One-row reviews table of the spec's worked example. -/
def exReviews : Frame := [[("shuttle_id", Value.int 1), ("rating", Value.int 5)]]

/-- One-row companies table of the spec's worked example. -/
def exCompanies : Frame := [[("id", Value.int 10)]]

/-- The single output row the Model Input Builder produces on the
worked example. -/
def exOutputRow : Row :=
  [("company_id", Value.int 10), ("shuttle_id", Value.int 1),
   ("rating", Value.int 5), ("id", Value.int 10)]

/-- C3.  Every output row of the Model Input Builder comes from a shuttle
row, a matching review row (join on shuttles `id` = reviews `shuttle_id`,
with the shuttle-side `id` column dropped) and a matching company row
(join on `company_id` = companies `id`), and contains no missing value.
On the worked example (shuttle id 1 / company_id 10, review shuttle_id 1
/ rating 5, company id 10) the output is exactly one row with columns
from all three tables, and with a review whose `shuttle_id` does not
match the shuttle is absent because the output is empty. -/
theorem C3_model_input_builder :
    (∀ shuttles companies reviews : Frame,
      ∀ row ∈ create_model_input_table shuttles companies reviews,
        (∀ kv ∈ row, kv.2 ≠ Value.na) ∧
        ∃ s ∈ shuttles, ∃ r ∈ reviews, ∃ c ∈ companies,
          lookupCol r "shuttle_id" = lookupCol s "id" ∧
          lookupCol c "id" = lookupCol (dropColRow "id" (s ++ r)) "company_id" ∧
          row = dropColRow "id" (s ++ r) ++ c) ∧
    create_model_input_table exShuttles exCompanies exReviews = [exOutputRow] ∧
    create_model_input_table exShuttles exCompanies
      [[("shuttle_id", Value.int 2), ("rating", Value.int 5)]] = [] := by
  refine ⟨fun sh co re row h => mem_create_model_input_table h, ?_, ?_⟩
  · decide
  · decide

/-- C3, witness at the worked example's output row. -/
theorem C3_model_input_builder_witness :
    (∀ kv ∈ exOutputRow, kv.2 ≠ Value.na) ∧
    ∃ s ∈ exShuttles, ∃ r ∈ exReviews, ∃ c ∈ exCompanies,
      lookupCol r "shuttle_id" = lookupCol s "id" ∧
      lookupCol c "id" = lookupCol (dropColRow "id" (s ++ r)) "company_id" ∧
      exOutputRow = dropColRow "id" (s ++ r) ++ c :=
  C3_model_input_builder.1 exShuttles exCompanies exReviews exOutputRow (by decide)

/-- C9.  The boolean-flag parser maps a missing cell to boolean false,
and after preprocessing no flag column (`d_check_complete`,
`moon_clearance_complete`, `iata_approved`) holds a missing value, so a
row dropped by the drop-missing step always owes its removal to a
non-flag column. -/
theorem C9_null_flag_not_missing :
    is_true Value.na = Value.bool false ∧
    (∀ shuttles out : Frame, preprocess_shuttles shuttles = some out →
      ∀ row ∈ out, ∀ kv ∈ row,
        kv.1 = "d_check_complete" ∨ kv.1 = "moon_clearance_complete" →
        kv.2 ≠ Value.na) ∧
    (∀ companies out : Frame, preprocess_companies companies = some out →
      ∀ row ∈ out, ∀ kv ∈ row, kv.1 = "iata_approved" → kv.2 ≠ Value.na) ∧
    (∀ shuttles out : Frame, preprocess_shuttles shuttles = some out →
      ∀ row ∈ out, row ∉ dropna out →
        ∃ kv ∈ row, kv.2 = Value.na ∧
          kv.1 ≠ "d_check_complete" ∧ kv.1 ≠ "moon_clearance_complete") := by
  have hshuttle : ∀ shuttles out : Frame, preprocess_shuttles shuttles = some out →
      ∀ row ∈ out, ∀ kv ∈ row,
        kv.1 = "d_check_complete" ∨ kv.1 = "moon_clearance_complete" →
        kv.2 ≠ Value.na := by
    intro shuttles out h row hrow kv hkv hflag
    obtain ⟨b, hb⟩ := preprocess_shuttles_flags shuttles out h row hrow kv hkv hflag
    rw [hb]
    exact fun hc => Value.noConfusion hc
  refine ⟨rfl, hshuttle, ?_, ?_⟩
  · intro companies out h row hrow kv hkv hflag
    obtain ⟨b, hb⟩ := preprocess_companies_flags companies out h row hrow kv hkv hflag
    rw [hb]
    exact fun hc => Value.noConfusion hc
  · intro shuttles out h row hrow hnot
    have hcond : ¬ (row.all (fun kv => kv.2 != Value.na) = true) := by
      intro hall
      exact hnot (List.mem_filter.mpr ⟨hrow, hall⟩)
    rw [List.all_eq_true] at hcond
    push_neg at hcond
    obtain ⟨kv, hkv, hne⟩ := hcond
    have hna : kv.2 = Value.na := by
      by_contra hc
      exact hne (bne_iff_ne.mpr hc)
    refine ⟨kv, hkv, hna, fun hd => ?_, fun hm => ?_⟩
    · exact hshuttle shuttles out h row hrow kv hkv (Or.inl hd) hna
    · exact hshuttle shuttles out h row hrow kv hkv (Or.inr hm) hna

/-- C9, witness: a shuttles row whose `d_check_complete` cell is missing
preprocesses to boolean false there, which is not a missing value. -/
theorem C9_null_flag_not_missing_witness :
    (Value.bool false : Value) ≠ Value.na :=
  C9_null_flag_not_missing.2.1 [[("d_check_complete", Value.na)]]
    [[("d_check_complete", Value.bool false)]] (by decide)
    [("d_check_complete", Value.bool false)] (by decide)
    ("d_check_complete", Value.bool false) (by decide) (Or.inl rfl)

/-- C10.  The Model Input Builder's output keeps the companies-side `id`
column: when the reviews table carries no `id` column (as in the source
data) and every company row has an `id` cell, every output row ends with
a full company row — only the shuttles-side `id` cells are dropped — and
looking up `id` in the output row yields the company row's `id` value. -/
theorem C10_companies_id_present (shuttles companies reviews : Frame)
    (hrev : ∀ r ∈ reviews, ∀ kv ∈ r, kv.1 ≠ "id")
    (hcid : ∀ c ∈ companies, (lookupCol c "id").isSome = true) :
    ∀ row ∈ create_model_input_table shuttles companies reviews,
      ∃ c ∈ companies, ∃ s ∈ shuttles, ∃ r ∈ reviews,
        row = (dropColRow "id" s ++ r) ++ c ∧
        lookupCol row "id" = lookupCol c "id" ∧
        ∃ v, lookupCol row "id" = some v := by
  intro row hrow
  obtain ⟨-, s, hs, r, hr, c, hc, -, -, heq⟩ := mem_create_model_input_table hrow
  have hdrop : dropColRow "id" (s ++ r) = dropColRow "id" s ++ r :=
    dropColRow_append _ _ _ (hrev r hr)
  have hlook : lookupCol row "id" = lookupCol c "id" := by
    rw [heq]
    exact lookupCol_append_ne _ _ _ (dropColRow_key_ne _ _)
  obtain ⟨v, hv⟩ := Option.isSome_iff_exists.mp (hcid c hc)
  exact ⟨c, hc, s, hs, r, hr, by rw [heq, hdrop], hlook, v, by rw [hlook, hv]⟩

/-- C10, witness at the worked example tables. -/
theorem C10_companies_id_present_witness :
    ∃ c ∈ exCompanies, ∃ s ∈ exShuttles, ∃ r ∈ exReviews,
      exOutputRow = (dropColRow "id" s ++ r) ++ c ∧
      lookupCol exOutputRow "id" = lookupCol c "id" ∧
      ∃ v, lookupCol exOutputRow "id" = some v :=
  C10_companies_id_present exShuttles exCompanies exReviews (by decide) (by decide)
    exOutputRow (by decide)

end CreditCard
